import Mathlib

/-!
# The todo gRPC client (`client/main.go`)

A shallow embedding of the four call drivers of the client (`addTask`,
`printTasks`, `updateTasks`, `deleteTasks`) and of `main`.

* The `pb.TodoServiceClient` interface is a parameter: a fake client over a
  state `σ` that answers every RPC invocation with a scripted behaviour.
* Every driver returns a `Run`: the ordered list of the observable calls it
  made (channel operations, `fmt` and `log` calls) and how it ended.
* `log.Fatalf` ends the process, `panic` unwinds, a `Recv` that the script
  never answers blocks for ever; all three are outcomes distinct from a
  normal return.
* The two goroutines of `deleteTasks` are embedded one by one (`deleteTasksSender`,
  `deleteTasksReceiver`) and composed by `weave`, which interleaves their steps
  under an arbitrary schedule and lets `<-waitc` proceed only once `close(waitc)`
  has happened.
-/

namespace GrpcClient

/-! ## Payloads -/

/-- Go error values that are not `nil`: `EOF` is `io.EOF`, `status` an RPC status
error, `nilDereference` the runtime error of a nil pointer dereference. -/
inductive Error where
  | EOF
  | status (code : Nat)
  | nilDereference
  deriving DecidableEq, Repr

/-- A `time.Time`, as nanoseconds since the Unix epoch. -/
structure Time where
  unixNano : Int
  deriving DecidableEq, Repr

/-- The method `Time.Add`: the duration is a number of nanoseconds. -/
def Time.Add (t : Time) (d : Int) : Time := ⟨t.unixNano + d⟩

/-- The constant `time.Second`. -/
def Second : Int := 1000000000

/-- The constant `time.Hour`. -/
def Hour : Int := 3600 * Second

/-- The message `timestamppb.Timestamp`. -/
structure Timestamp where
  Seconds : Int
  Nanos : Int
  deriving DecidableEq, Repr

/-- The constructor `timestamppb.New`: whole seconds and the remaining nanoseconds. -/
def timestamppbNew (t : Time) : Timestamp :=
  ⟨t.unixNano / Second, t.unixNano % Second⟩

/-- The message `pb.Task`; `Id` is a `uint64`, an unset `DueDate` is `none`. -/
structure Task where
  Id : Nat
  Description : String
  Done : Bool
  DueDate : Option Timestamp
  deriving DecidableEq, Repr

structure AddTaskRequest where
  Description : String
  DueDate : Option Timestamp
  deriving DecidableEq, Repr

structure AddTaskResponse where
  Id : Nat
  deriving DecidableEq, Repr

structure ListTasksRequest where
  deriving DecidableEq, Repr

/-- The message `pb.ListTasksResponse`; a nil `Task` pointer is `none`. -/
structure ListTasksResponse where
  Task : Option Task
  Overdue : Bool
  deriving DecidableEq, Repr

/-- The message `pb.UpdateTasksRequest`; a nil `Task` pointer is `none`. -/
structure UpdateTasksRequest where
  Task : Option Task
  deriving DecidableEq, Repr

structure UpdateTasksResponse where
  deriving DecidableEq, Repr

structure DeleteTasksRequest where
  Id : Nat
  deriving DecidableEq, Repr

structure DeleteTasksResponse where
  deriving DecidableEq, Repr

/-! ## Observable calls and outcomes -/

/-- One observable call made by the client, with its operands. -/
inductive Event where
  /-- The call `c.AddTask(ctx, req)`. -/
  | callAddTask (req : AddTaskRequest)
  /-- The call `c.ListTasks(ctx, req)`. -/
  | openListTasks (req : ListTasksRequest)
  /-- The call `c.UpdateTasks(ctx)`. -/
  | openUpdateTasks
  /-- The call `c.DeleteTasks(ctx)`. -/
  | openDeleteTasks
  /-- A call `stream.Recv()`. -/
  | recv
  /-- A call `stream.Send(req)` on the update stream; a nil `req` is `none`. -/
  | sendUpdate (req : Option UpdateTasksRequest)
  /-- A call `stream.Send(req)` on the delete stream. -/
  | sendDelete (req : DeleteTasksRequest)
  /-- The call `stream.CloseAndRecv()`. -/
  | closeAndRecv
  /-- The call `stream.CloseSend()`. -/
  | closeSend
  /-- A call `fmt.Printf(format, n)`. -/
  | printf (format : String) (n : Nat)
  /-- The call `fmt.Println(res.Task.String(), "overdue: ", res.Overdue)`. -/
  | printlnTask (task : Option Task) (label : String) (overdue : Bool)
  /-- A call `fmt.Println(s)`. -/
  | println (s : String)
  /-- A call `log.Println(s)`. -/
  | logPrintln (s : String)
  /-- A call `log.Fatalf(format, err)`: it writes the message and exits the process. -/
  | logFatalf (format : String) (err : Error)
  /-- The call `log.Fatalln(s)`. -/
  | logFatalln (s : String)
  /-- A call `panic(err)`, or the runtime panic of a nil pointer dereference. -/
  | panic (err : Error)
  /-- The statement `waitc := make(chan struct{})`. -/
  | makeWaitc
  /-- The statement `go func() { ... }()`. -/
  | goReceiver
  /-- The statement `close(waitc)`. -/
  | closeWaitc
  /-- The statement `<-waitc`, once it has received. -/
  | recvWaitc
  /-- The call `grpc.Dial(addr, opts...)`. -/
  | dial (addr : String)
  /-- The deferred call `conn.Close()`. -/
  | connClose
  deriving DecidableEq, Repr

/-- How a piece of the program ends. -/
inductive Outcome (α : Type) where
  /-- It returns normally. -/
  | returned (a : α)
  /-- The process has exited through `log.Fatalf(format, err)`. -/
  | fatal (err : Error)
  /-- The process has exited through `log.Fatalln`. -/
  | usage
  /-- It is unwinding through `panic(err)`. -/
  | panicked (err : Error)
  /-- It waits for ever on an operation that the script never answers. -/
  | blocked
  deriving DecidableEq, Repr

/-- The calls made, oldest first, and the way the run ended. -/
structure Run (α : Type) where
  trace : List Event
  outcome : Outcome α
  deriving DecidableEq, Repr

/-- Put the calls made earlier in front of a run. -/
def Run.after {α : Type} (es : List Event) (r : Run α) : Run α :=
  ⟨es ++ r.trace, r.outcome⟩

/-- Sequencing: the second part runs only when the first returned normally. -/
def Run.andThen {α β : Type} (r : Run α) (k : α → Run β) : Run β :=
  match r.outcome with
  | .returned a => (k a).after r.trace
  | .fatal err => ⟨r.trace, .fatal err⟩
  | .usage => ⟨r.trace, .usage⟩
  | .panicked err => ⟨r.trace, .panicked err⟩
  | .blocked => ⟨r.trace, .blocked⟩

/-! ## The client interface -/

/-- The result of a `Recv`: a response, or the error that came with it. -/
abbrev RecvResult (α : Type) := Except Error α

/-- The stream of `ListTasks`: the results of its successive `Recv` calls. -/
structure ListTasksStream where
  Recv : List (RecvResult ListTasksResponse)

/-- The stream of `UpdateTasks`: the error of the `Send` call number `k`, counted
from 0 (`none` is `nil`), and the result of `CloseAndRecv`. -/
structure UpdateTasksStream where
  Send : Nat → Option Error
  CloseAndRecv : Except Error UpdateTasksResponse

/-- The stream of `DeleteTasks`: the error of the `Send` call number `k`, counted
from 0, the error of `CloseSend`, and the results of the successive `Recv` calls. -/
structure DeleteTasksStream where
  Send : Nat → Option Error
  CloseSend : Option Error
  Recv : List (RecvResult DeleteTasksResponse)

/-- The interface `pb.TodoServiceClient`, as a fake over a state `σ`: every
invocation answers from the state and moves it on. As with the generated stubs, an
invocation yields either a response (or a stream) or an error, never both. -/
structure TodoServiceClient (σ : Type) where
  AddTask : σ → AddTaskRequest → Except Error AddTaskResponse × σ
  ListTasks : σ → ListTasksRequest → Except Error ListTasksStream × σ
  UpdateTasks : σ → Except Error UpdateTasksStream × σ
  DeleteTasks : σ → Except Error DeleteTasksStream × σ

/-! ## `addTask` -/

/-- The function `addTask`. -/
def addTask {σ : Type} (c : TodoServiceClient σ) (s : σ) (description : String)
    (dueDate : Time) : Run Nat × σ :=
  let req : AddTaskRequest := ⟨description, some (timestamppbNew dueDate)⟩
  match c.AddTask s req with
  | (.error err, s') => (⟨[.callAddTask req, .panic err], .panicked err⟩, s')
  | (.ok res, s') =>
    (⟨[.callAddTask req, .printf "added task: %d\n" res.Id], .returned res.Id⟩, s')

/-! ## `printTasks` -/

/-- The `for` loop of `printTasks`, over the results of the `Recv` calls still to come. -/
def printTasksLoop : List (RecvResult ListTasksResponse) → Run Unit
  | [] => ⟨[.recv], .blocked⟩
  | .error err :: _ =>
    if err = Error.EOF then ⟨[.recv], .returned ()⟩
    else ⟨[.recv, .logFatalf "unexpected error: %v" err], .fatal err⟩
  | .ok res :: rest =>
    (printTasksLoop rest).after [.recv, .printlnTask res.Task "overdue: " res.Overdue]

/-- The function `printTasks`. -/
def printTasks {σ : Type} (c : TodoServiceClient σ) (s : σ) : Run Unit × σ :=
  let req : ListTasksRequest := {}
  match c.ListTasks s req with
  | (.error err, s') =>
    (⟨[.openListTasks req, .logFatalf "unexpected error: %v" err], .fatal err⟩, s')
  | (.ok stream, s') => ((printTasksLoop stream.Recv).after [.openListTasks req], s')

/-! ## `updateTasks` -/

/-- The `for ... range reqs` loop of `updateTasks`; `k` counts the `Send` calls made
so far. An element of `reqs` is a pointer: `none` is a nil request, which is passed
to `Send` like any other and then makes `req.Task` panic. -/
def updateTasksLoop (stream : UpdateTasksStream) :
    Nat → List (Option UpdateTasksRequest) → Run Unit
  | _, [] => ⟨[], .returned ()⟩
  | k, req :: rest =>
    match stream.Send k with
    | some err => ⟨[.sendUpdate req, .logFatalf "unexpected error: %v" err], .fatal err⟩
    | none =>
      match req with
      | none =>
        ⟨[.sendUpdate none, .panic Error.nilDereference], .panicked Error.nilDereference⟩
      | some r =>
        match r.Task with
        | some t =>
          (updateTasksLoop stream (k + 1) rest).after
            [.sendUpdate (some r), .printf "updated task with id: %d\n" t.Id]
        | none => (updateTasksLoop stream (k + 1) rest).after [.sendUpdate (some r)]

/-- The function `updateTasks`; the variadic `reqs` is a list of pointers, `none`
being nil. -/
def updateTasks {σ : Type} (c : TodoServiceClient σ) (s : σ)
    (reqs : List (Option UpdateTasksRequest)) : Run Unit × σ :=
  match c.UpdateTasks s with
  | (.error err, s') =>
    (⟨[.openUpdateTasks, .logFatalf "unexpected error: %v" err], .fatal err⟩, s')
  | (.ok stream, s') =>
    (((updateTasksLoop stream 0 reqs).andThen fun _ =>
        match stream.CloseAndRecv with
        | .error err => ⟨[.closeAndRecv, .logFatalf "unexpected error: %v" err], .fatal err⟩
        | .ok _ => ⟨[.closeAndRecv], .returned ()⟩).after [.openUpdateTasks], s')

/-! ## `deleteTasks` -/

/-- The sender of `deleteTasks`, run by the calling goroutine: the steps of the
`for ... range reqs` loop, of `CloseSend` and of `<-waitc`, in program order. A
failed `Send` or `CloseSend` is followed by `return`, so the list ends there;
`k` counts the `Send` calls made so far. -/
def deleteTasksSender (stream : DeleteTasksStream) : Nat → List DeleteTasksRequest → List Event
  | _, [] =>
    match stream.CloseSend with
    | some _ => [.closeSend]
    | none => [.closeSend, .recvWaitc]
  | k, req :: rest =>
    match stream.Send k with
    | some _ => [.sendDelete req]
    | none => .sendDelete req :: deleteTasksSender stream (k + 1) rest

/-- The receiver of `deleteTasks`: the body of the goroutine started by `go func()`,
over the results of the `Recv` calls still to come. -/
def deleteTasksReceiver : List (RecvResult DeleteTasksResponse) → Run Unit
  | [] => ⟨[.recv], .blocked⟩
  | .error err :: _ =>
    if err = Error.EOF then ⟨[.recv, .closeWaitc], .returned ()⟩
    else ⟨[.recv, .logFatalf "error while receiving: %v\n" err], .fatal err⟩
  | .ok _ :: rest => (deleteTasksReceiver rest).after [.recv, .logPrintln "deleted tasks"]

/-- The two goroutines of `deleteTasks`. -/
inductive Thread where
  | sender
  | receiver
  deriving DecidableEq, Repr

/-- A run of `deleteTasks`: the calls made by both goroutines until the function
stops, the way it stops, and the steps the receiver goroutine has not performed
by then. -/
structure BidiRun extends Run Unit where
  pending : List Event
  deriving DecidableEq, Repr

/-- Put the calls made earlier in front of a run of `deleteTasks`. -/
def BidiRun.after (es : List Event) (r : BidiRun) : BidiRun :=
  ⟨⟨es ++ r.trace, r.outcome⟩, r.pending⟩

/-- The error of a `log.Fatalf` step. -/
def Event.fatalError : Event → Option Error
  | .logFatalf _ err => some err
  | _ => none

/-- Interleave the remaining steps `m` of the calling goroutine with the remaining
steps `r` of the receiver goroutine. Each turn goes to the goroutine the schedule
names (the sender once the schedule is used up) when it can move, to the other one
when it cannot. `<-waitc` can move only when `closed` holds, that is after
`close(waitc)`. The function returns when `m` is used up, the process exits when
the receiver reaches `log.Fatalf`, and the run is blocked when neither goroutine
can move. -/
def weave : Nat → List Thread → Bool → List Event → List Event → BidiRun
  | 0, _, _, _, r => ⟨⟨[], .blocked⟩, r⟩
  | _ + 1, _, _, [], r => ⟨⟨[], .returned ()⟩, r⟩
  | fuel + 1, sched, closed, e :: m, r =>
    let senderReady : Bool := closed || decide (e ≠ Event.recvWaitc)
    let senderTurn : Bool := decide (sched.head? ≠ some Thread.receiver)
    match r with
    | [] =>
      if senderReady then (weave fuel sched.tail closed m []).after [e]
      else ⟨⟨[], .blocked⟩, []⟩
    | x :: r' =>
      if senderReady && senderTurn then (weave fuel sched.tail closed m (x :: r')).after [e]
      else
        match x.fatalError with
        | some err => ⟨⟨[x], .fatal err⟩, r'⟩
        | none =>
          (weave fuel sched.tail (closed || decide (x = Event.closeWaitc)) (e :: m) r').after [x]

/-- The function `deleteTasks`, under the schedule `sched` of its two goroutines.
The fuel is one more than the number of steps of both goroutines, so that a run
never stops for want of fuel (`weave_fuel`). -/
def deleteTasks {σ : Type} (c : TodoServiceClient σ) (s : σ) (sched : List Thread)
    (reqs : List DeleteTasksRequest) : BidiRun × σ :=
  match c.DeleteTasks s with
  | (.error err, s') =>
    (⟨⟨[.openDeleteTasks, .logFatalf "unexpected error: %v" err], .fatal err⟩, []⟩, s')
  | (.ok stream, s') =>
    let m := deleteTasksSender stream 0 reqs
    let r := (deleteTasksReceiver stream.Recv).trace
    ((weave (m.length + r.length + 1) sched false m r).after
      [.openDeleteTasks, .makeWaitc, .goReceiver], s')

/-! ## `main` -/

/-- A piece of the program over the state of the fake service. -/
abbrev Prog (σ α : Type) := σ → Run α × σ

/-- Sequencing of two pieces of the program: the second one runs, from the state
the first one left, only when the first returned normally. -/
def Prog.bind {σ α β : Type} (p : Prog σ α) (k : α → Prog σ β) : Prog σ β := fun s =>
  let (r, s') := p s
  match r.outcome with
  | .returned a => let (r', s'') := k a s'; (r'.after r.trace, s'')
  | .fatal err => (⟨r.trace, .fatal err⟩, s')
  | .usage => (⟨r.trace, .usage⟩, s')
  | .panicked err => (⟨r.trace, .panicked err⟩, s')
  | .blocked => (⟨r.trace, .blocked⟩, s')

/-- The call `fmt.Println(s)`. -/
def println {σ : Type} (s : String) : Prog σ Unit :=
  fun st => (⟨[.println s], .returned ()⟩, st)

/-- The functions the body of `main` calls, with the connected client. -/
def mainBody {σ : Type} (c : TodoServiceClient σ) (now : Time) (sched : List Thread) :
    Prog σ Unit :=
  let dueDate := now.Add (5 * Second)
  Prog.bind (println "--------ADD--------") fun _ =>
  Prog.bind (fun s => addTask c s "This is a task" dueDate) fun id1 =>
  Prog.bind (fun s => addTask c s "This is another task" dueDate) fun id2 =>
  Prog.bind (fun s => addTask c s "And yet another task" dueDate) fun id3 =>
  Prog.bind (println "-------------------") fun _ =>
  Prog.bind (println "--------LIST-------") fun _ =>
  Prog.bind (printTasks c) fun _ =>
  Prog.bind (println "-------------------") fun _ =>
  Prog.bind (println "-------UPDATE------") fun _ =>
  Prog.bind (fun s => updateTasks c s [
    some ⟨some ⟨id1, "A better name for the task", false, none⟩⟩,
    some ⟨some ⟨id2, "", false, some (timestamppbNew (dueDate.Add (5 * Hour)))⟩⟩,
    some ⟨some ⟨id3, "", true, none⟩⟩]) fun _ =>
  Prog.bind (printTasks c) fun _ =>
  Prog.bind (println "-------------------") fun _ =>
  Prog.bind (println "-------DELETE------") fun _ =>
  Prog.bind (fun s =>
    ((deleteTasks c s sched [⟨id1⟩, ⟨id2⟩, ⟨id3⟩]).1.toRun,
      (deleteTasks c s sched [⟨id1⟩, ⟨id2⟩, ⟨id3⟩]).2)) fun _ =>
  Prog.bind (printTasks c) fun _ =>
  println "-------------------"

/-- The function `main`: `args` is `os.Args[1:]`, `dialErr` the error of `grpc.Dial`,
`closeErr` the error of the deferred `conn.Close()`. The deferred call runs when
the body returns or panics, not when the process exits through `log.Fatalf`. -/
def main {σ : Type} (args : List String) (dialErr closeErr : Option Error)
    (c : TodoServiceClient σ) (s : σ) (now : Time) (sched : List Thread) : Run Unit :=
  match args with
  | [] => ⟨[.logFatalln "usage: client [IP_ADDR]"], .usage⟩
  | addr :: _ =>
    match dialErr with
    | some err => ⟨[.dial addr, .logFatalf "did not connect: %v" err], .fatal err⟩
    | none =>
      let body := ((mainBody c now sched s).1).after [.dial addr]
      match body.outcome, closeErr with
      | .returned _, none => ⟨body.trace ++ [.connClose], .returned ()⟩
      | .returned _, some err =>
        ⟨body.trace ++ [.connClose, .logFatalf "unexpected error: %v" err], .fatal err⟩
      | .panicked e, none => ⟨body.trace ++ [.connClose], .panicked e⟩
      | .panicked _, some err =>
        ⟨body.trace ++ [.connClose, .logFatalf "unexpected error: %v" err], .fatal err⟩
      | _, _ => body

/-! ## A fake task service -/

/-- The state of the fake task service: the tasks it stores, oldest first. -/
structure FakeState where
  tasks : List Task
  deriving DecidableEq, Repr

/-- The fake task service of the end-to-end scenario. An add stores the task under
the next id, counted from 1; a list streams the stored tasks, then end-of-stream;
an update stream accepts every request and acknowledges once at close; a delete
stream accepts every request and emits one confirmation for each stored task, then
end-of-stream. No call fails. -/
def fakeService : TodoServiceClient FakeState where
  AddTask := fun s req =>
    let id := s.tasks.length + 1
    (.ok ⟨id⟩, ⟨s.tasks ++ [⟨id, req.Description, false, req.DueDate⟩]⟩)
  ListTasks := fun s _ =>
    (.ok ⟨s.tasks.map (fun t => Except.ok ⟨some t, false⟩) ++ [.error Error.EOF]⟩, s)
  UpdateTasks := fun s => (.ok ⟨fun _ => none, .ok {}⟩, s)
  DeleteTasks := fun s =>
    (.ok ⟨fun _ => none, none, s.tasks.map (fun _ => Except.ok {}) ++ [.error Error.EOF]⟩, s)

/-! ## Reading a trace -/

/-- The request pointer of a `Send` on the update stream. -/
def Event.updateSent : Event → Option (Option UpdateTasksRequest)
  | .sendUpdate req => some req
  | _ => none

/-- The request of a `Send` on the delete stream. -/
def Event.deleteSent : Event → Option DeleteTasksRequest
  | .sendDelete req => some req
  | _ => none

/-- The calls that go to the channel: invocations and stream operations. -/
def Event.isChannelOp : Event → Bool
  | .callAddTask _ | .openListTasks _ | .openUpdateTasks | .openDeleteTasks | .recv
  | .sendUpdate _ | .sendDelete _ | .closeAndRecv | .closeSend => true
  | _ => false

/-- The calls that write to standard output. -/
def Event.isStdout : Event → Bool
  | .printf _ _ | .printlnTask _ _ _ | .println _ => true
  | _ => false

/-- The steps of `deleteTasks` that its receiver goroutine performs. -/
def Event.isReceiverStep : Event → Bool
  | .recv | .logPrintln _ | .logFatalf _ _ | .closeWaitc => true
  | _ => false

/-- The steps of `deleteTasks` that its calling goroutine performs after `go func()`. -/
def Event.isSenderStep : Event → Bool
  | .sendDelete _ | .closeSend | .recvWaitc => true
  | _ => false

/-- The line `printTasks` prints for a response. -/
def taskLine (res : ListTasksResponse) : Event :=
  .printlnTask res.Task "overdue: " res.Overdue

/-- The calls of `printTasks` for the responses `rs`: a `Recv`, then the line. -/
def recvLines : List ListTasksResponse → List Event
  | [] => []
  | r :: rs => Event.recv :: taskLine r :: recvLines rs

/-- The steps of the receiver of `deleteTasks` for `n` responses: a `Recv`, then the log line. -/
def recvLogs : Nat → List Event
  | 0 => []
  | n + 1 => Event.recv :: Event.logPrintln "deleted tasks" :: recvLogs n

/-- A run that has returned through `<-waitc` with the receiver finished. -/
def Joined (w : BidiRun) : Prop :=
  w.outcome = .returned () ∧ w.pending = [] ∧ ∃ pre, w.trace = pre ++ [Event.recvWaitc]

/-! ## Fakes with a failing delete stream -/

/-- A delete stream whose first `Send` fails, while the remote still answers. -/
def sendFailureService : TodoServiceClient Unit where
  AddTask := fun s _ => (.error (Error.status 12), s)
  ListTasks := fun s _ => (.error (Error.status 12), s)
  UpdateTasks := fun s => (.error (Error.status 12), s)
  DeleteTasks := fun s =>
    (.ok ⟨fun _ => some (Error.status 14), none, [.ok {}, .error Error.EOF]⟩, s)

/-- A delete stream whose `CloseSend` fails, while the remote still answers. -/
def closeSendFailureService : TodoServiceClient Unit where
  AddTask := fun s _ => (.error (Error.status 12), s)
  ListTasks := fun s _ => (.error (Error.status 12), s)
  UpdateTasks := fun s => (.error (Error.status 12), s)
  DeleteTasks := fun s =>
    (.ok ⟨fun _ => none, some (Error.status 14), [.ok {}, .error Error.EOF]⟩, s)

/-- An update stream whose second `Send` fails. -/
def updateFailureService : TodoServiceClient Unit where
  AddTask := fun s _ => (.error (Error.status 12), s)
  ListTasks := fun s _ => (.error (Error.status 12), s)
  UpdateTasks := fun s =>
    (.ok ⟨fun k => if k = 1 then some (Error.status 14) else none, .ok {}⟩, s)
  DeleteTasks := fun s => (.error (Error.status 12), s)

/-- A state of the fake task service with two stored tasks. -/
def twoTasks : FakeState :=
  ⟨[⟨1, "This is a task", false, none⟩, ⟨2, "This is another task", true, none⟩]⟩

/-! ## Lemmas on the sequential loops -/

theorem printTasksLoop_eof (rs : List ListTasksResponse)
    (tail : List (RecvResult ListTasksResponse)) :
    printTasksLoop (rs.map Except.ok ++ Except.error Error.EOF :: tail) =
      ⟨recvLines rs ++ [Event.recv], .returned ()⟩ := by
  induction rs with
  | nil => simp [printTasksLoop, recvLines]
  | cons r rs ih => simp [printTasksLoop, ih, Run.after, taskLine, recvLines]

theorem printTasksLoop_error (rs : List ListTasksResponse) (err : Error) (herr : err ≠ Error.EOF)
    (tail : List (RecvResult ListTasksResponse)) :
    printTasksLoop (rs.map Except.ok ++ Except.error err :: tail) =
      ⟨recvLines rs ++ [Event.recv, Event.logFatalf "unexpected error: %v" err], .fatal err⟩ := by
  induction rs with
  | nil => simp [printTasksLoop, herr, recvLines]
  | cons r rs ih => simp [printTasksLoop, ih, Run.after, taskLine, recvLines]

theorem count_recvLines (rs : List ListTasksResponse) :
    (recvLines rs).count Event.recv = rs.length := by
  induction rs with
  | nil => simp [recvLines]
  | cons r rs ih => simp [recvLines, ih, taskLine, List.count_cons]

theorem stdout_recvLines (rs : List ListTasksResponse) :
    (recvLines rs).filter Event.isStdout = rs.map taskLine := by
  induction rs with
  | nil => simp [recvLines]
  | cons r rs ih => simp [recvLines, ih, taskLine, Event.isStdout]

theorem updateTasksLoop_take (stream : UpdateTasksStream) (k0 : Nat)
    (reqs : List (Option UpdateTasksRequest)) :
    ∃ k, (updateTasksLoop stream k0 reqs).trace.filterMap Event.updateSent = reqs.take k := by
  induction reqs generalizing k0 with
  | nil => exact ⟨0, by simp [updateTasksLoop]⟩
  | cons req rest ih =>
    obtain ⟨k, hk⟩ := ih (k0 + 1)
    cases hsend : stream.Send k0 with
    | some err => exact ⟨1, by simp [updateTasksLoop, hsend, Event.updateSent]⟩
    | none =>
      cases req with
      | none => exact ⟨1, by simp [updateTasksLoop, hsend, Event.updateSent]⟩
      | some r =>
        refine ⟨k + 1, ?_⟩
        cases htask : r.Task <;>
          simp [updateTasksLoop, hsend, htask, Run.after, Event.updateSent, hk]

theorem updateTasksLoop_ok (stream : UpdateTasksStream) (k0 : Nat)
    (reqs : List (Option UpdateTasksRequest)) (hnonnil : ∀ r ∈ reqs, r ≠ none)
    (h : ∀ j, j < reqs.length → stream.Send (k0 + j) = none) :
    (updateTasksLoop stream k0 reqs).outcome = .returned () ∧
    (updateTasksLoop stream k0 reqs).trace.filterMap Event.updateSent = reqs ∧
    (updateTasksLoop stream k0 reqs).trace.filter Event.isChannelOp =
      reqs.map Event.sendUpdate := by
  induction reqs generalizing k0 with
  | nil => simp [updateTasksLoop]
  | cons req rest ih =>
    have h0 : stream.Send k0 = none := by simpa using h 0 (by simp)
    have hrest : ∀ j, j < rest.length → stream.Send (k0 + 1 + j) = none := by
      intro j hj
      have := h (j + 1) (by simpa using hj)
      rwa [show k0 + 1 + j = k0 + (j + 1) by omega]
    obtain ⟨ho, hs, hc⟩ := ih (k0 + 1) (fun r hr => hnonnil r (by simp [hr])) hrest
    cases req with
    | none => exact absurd rfl (hnonnil none (by simp))
    | some r =>
      cases htask : r.Task <;>
        simp [updateTasksLoop, h0, htask, Run.after, Event.updateSent, Event.isChannelOp,
          ho, hs, hc]

theorem updateTasksLoop_fail (stream : UpdateTasksStream) (k0 : Nat)
    (reqs : List (Option UpdateTasksRequest)) (hnonnil : ∀ r ∈ reqs, r ≠ none)
    (j : Nat) (err : Error) (hj : j < reqs.length)
    (hfail : stream.Send (k0 + j) = some err)
    (hbefore : ∀ i, i < j → stream.Send (k0 + i) = none) :
    (updateTasksLoop stream k0 reqs).outcome = .fatal err ∧
    (updateTasksLoop stream k0 reqs).trace.filterMap Event.updateSent = reqs.take (j + 1) ∧
    (updateTasksLoop stream k0 reqs).trace.filter Event.isChannelOp =
      (reqs.take (j + 1)).map Event.sendUpdate := by
  induction reqs generalizing k0 j with
  | nil => simp at hj
  | cons req rest ih =>
    cases j with
    | zero =>
      have h0 : stream.Send k0 = some err := by simpa using hfail
      simp [updateTasksLoop, h0, Event.updateSent, Event.isChannelOp]
    | succ j =>
      have h0 : stream.Send k0 = none := by simpa using hbefore 0 (by omega)
      have hfail1 : stream.Send (k0 + 1 + j) = some err := by
        rwa [show k0 + 1 + j = k0 + (j + 1) by omega]
      have hbefore1 : ∀ i, i < j → stream.Send (k0 + 1 + i) = none := by
        intro i hi
        have := hbefore (i + 1) (by omega)
        rwa [show k0 + 1 + i = k0 + (i + 1) by omega]
      obtain ⟨ho, hs, hc⟩ := ih (k0 + 1) (fun r hr => hnonnil r (by simp [hr])) j
        (by simpa using hj) hfail1 hbefore1
      cases req with
      | none => exact absurd rfl (hnonnil none (by simp))
      | some r =>
        cases htask : r.Task <;>
          simp [updateTasksLoop, h0, htask, Run.after, Event.updateSent, Event.isChannelOp,
            ho, hs, hc]

/-- The loop of `updateTasks` falls through to `CloseAndRecv` only when no request
was nil and every `Send` succeeded. -/
theorem updateTasksLoop_returned (stream : UpdateTasksStream) (k0 : Nat)
    (reqs : List (Option UpdateTasksRequest))
    (h : (updateTasksLoop stream k0 reqs).outcome = .returned ()) :
    (∀ r ∈ reqs, r ≠ none) ∧ ∀ j, j < reqs.length → stream.Send (k0 + j) = none := by
  induction reqs generalizing k0 with
  | nil => simp
  | cons req rest ih =>
    cases hsend : stream.Send k0 with
    | some err => simp [updateTasksLoop, hsend] at h
    | none =>
      cases req with
      | none => simp [updateTasksLoop, hsend] at h
      | some r =>
        have hrest : (updateTasksLoop stream (k0 + 1) rest).outcome = .returned () := by
          cases htask : r.Task <;> simpa [updateTasksLoop, hsend, htask, Run.after] using h
        obtain ⟨h1, h2⟩ := ih (k0 + 1) hrest
        refine ⟨?_, ?_⟩
        · intro x hx
          rcases List.mem_cons.1 hx with rfl | hx
          · simp
          · exact h1 x hx
        · intro j hj
          cases j with
          | zero => simpa using hsend
          | succ j =>
            have := h2 j (by simpa using hj)
            rwa [show k0 + 1 + j = k0 + (j + 1) by omega] at this

/-- The loop of `updateTasks` never calls `CloseAndRecv`. -/
theorem updateTasksLoop_no_close (stream : UpdateTasksStream) (k0 : Nat)
    (reqs : List (Option UpdateTasksRequest)) :
    (updateTasksLoop stream k0 reqs).trace.count Event.closeAndRecv = 0 := by
  induction reqs generalizing k0 with
  | nil => simp [updateTasksLoop]
  | cons req rest ih =>
    cases hsend : stream.Send k0 with
    | some err => simp [updateTasksLoop, hsend, List.count_cons]
    | none =>
      cases req with
      | none => simp [updateTasksLoop, hsend, List.count_cons]
      | some r =>
        cases htask : r.Task <;>
          simp [updateTasksLoop, hsend, htask, Run.after, List.count_cons, ih (k0 + 1)]

/-- A run that did not return normally is not continued. -/
theorem andThen_stopped (r : Run Unit) (k : Unit → Run Unit) (h : r.outcome ≠ .returned ()) :
    (r.andThen k).trace = r.trace ∧ (r.andThen k).outcome = r.outcome := by
  obtain ⟨t, o⟩ := r
  cases o with
  | returned a => exact absurd rfl h
  | fatal err => exact ⟨rfl, rfl⟩
  | usage => exact ⟨rfl, rfl⟩
  | panicked err => exact ⟨rfl, rfl⟩
  | blocked => exact ⟨rfl, rfl⟩

/-- A failing `Send` has a first one. -/
theorem first_failure (send : Nat → Option Error) (n j : Nat) (hj : j < n)
    (hfail : send j ≠ none) :
    ∃ k err, k < n ∧ send k = some err ∧ ∀ i, i < k → send i = none := by
  induction j using Nat.strong_induction_on with
  | _ j ih =>
    by_cases hall : ∀ i, i < j → send i = none
    · cases hsend : send j with
      | none => exact absurd hsend hfail
      | some err => exact ⟨j, err, hj, hsend, hall⟩
    · push_neg at hall
      obtain ⟨i, hi, hne⟩ := hall
      exact ih i hi (by omega) hne

theorem deleteTasksSender_ok (stream : DeleteTasksStream) (k0 : Nat)
    (reqs : List DeleteTasksRequest)
    (h : ∀ j, j < reqs.length → stream.Send (k0 + j) = none) :
    deleteTasksSender stream k0 reqs =
      reqs.map Event.sendDelete ++
        (if stream.CloseSend = none then [Event.closeSend, Event.recvWaitc]
         else [Event.closeSend]) := by
  induction reqs generalizing k0 with
  | nil => cases hclose : stream.CloseSend <;> simp [deleteTasksSender, hclose]
  | cons req rest ih =>
    have h0 : stream.Send k0 = none := by simpa using h 0 (by simp)
    have hrest : ∀ j, j < rest.length → stream.Send (k0 + 1 + j) = none := by
      intro j hj
      have := h (j + 1) (by simpa using hj)
      rwa [show k0 + 1 + j = k0 + (j + 1) by omega]
    simp [deleteTasksSender, h0, ih (k0 + 1) hrest]

theorem deleteTasksSender_fail (stream : DeleteTasksStream) (k0 : Nat)
    (reqs : List DeleteTasksRequest) (j : Nat) (err : Error) (hj : j < reqs.length)
    (hfail : stream.Send (k0 + j) = some err)
    (hbefore : ∀ i, i < j → stream.Send (k0 + i) = none) :
    deleteTasksSender stream k0 reqs = (reqs.take (j + 1)).map Event.sendDelete := by
  induction reqs generalizing k0 j with
  | nil => simp at hj
  | cons req rest ih =>
    cases j with
    | zero =>
      have h0 : stream.Send k0 = some err := by simpa using hfail
      simp [deleteTasksSender, h0]
    | succ j =>
      have h0 : stream.Send k0 = none := by simpa using hbefore 0 (by omega)
      have hfail1 : stream.Send (k0 + 1 + j) = some err := by
        rwa [show k0 + 1 + j = k0 + (j + 1) by omega]
      have hbefore1 : ∀ i, i < j → stream.Send (k0 + 1 + i) = none := by
        intro i hi
        have := hbefore (i + 1) (by omega)
        rwa [show k0 + 1 + i = k0 + (i + 1) by omega]
      simp [deleteTasksSender, h0, ih (k0 + 1) j (by simpa using hj) hfail1 hbefore1]

theorem deleteTasksReceiver_eof (ms : List DeleteTasksResponse)
    (tail : List (RecvResult DeleteTasksResponse)) :
    deleteTasksReceiver (ms.map Except.ok ++ Except.error Error.EOF :: tail) =
      ⟨recvLogs ms.length ++ [Event.recv, Event.closeWaitc], .returned ()⟩ := by
  induction ms with
  | nil => simp [deleteTasksReceiver, recvLogs]
  | cons r rs ih => simp [deleteTasksReceiver, ih, Run.after, recvLogs]

theorem deleteTasksReceiver_error (ms : List DeleteTasksResponse) (err : Error)
    (herr : err ≠ Error.EOF) (tail : List (RecvResult DeleteTasksResponse)) :
    deleteTasksReceiver (ms.map Except.ok ++ Except.error err :: tail) =
      ⟨recvLogs ms.length ++ [Event.recv, Event.logFatalf "error while receiving: %v\n" err],
        .fatal err⟩ := by
  induction ms with
  | nil => simp [deleteTasksReceiver, herr, recvLogs]
  | cons r rs ih => simp [deleteTasksReceiver, ih, Run.after, recvLogs]

theorem deleteTasksReceiver_silent (ms : List DeleteTasksResponse) :
    deleteTasksReceiver (ms.map Except.ok) = ⟨recvLogs ms.length ++ [Event.recv], .blocked⟩ := by
  induction ms with
  | nil => simp [deleteTasksReceiver, recvLogs]
  | cons r rs ih => simp [deleteTasksReceiver, ih, Run.after, recvLogs]

theorem count_recvLogs (n : Nat) :
    (recvLogs n).count Event.recv = n ∧
    (recvLogs n).count (Event.logPrintln "deleted tasks") = n ∧
    (recvLogs n).count Event.closeWaitc = 0 := by
  induction n with
  | zero => simp [recvLogs]
  | succ n ih => simp [recvLogs, List.count_cons, ih]

/-- Every receive script is a run of responses followed by nothing or by an error. -/
theorem script_shape (script : List (RecvResult DeleteTasksResponse)) :
    ∃ ms : List DeleteTasksResponse,
      script = ms.map Except.ok ∨
        ∃ err tail, script = ms.map Except.ok ++ Except.error err :: tail := by
  induction script with
  | nil => exact ⟨[], Or.inl rfl⟩
  | cons x rest ih =>
    cases x with
    | error err => exact ⟨[], Or.inr ⟨err, rest, rfl⟩⟩
    | ok res =>
      obtain ⟨ms, h | ⟨err, tail, h⟩⟩ := ih
      · exact ⟨res :: ms, Or.inl (by simp [h])⟩
      · exact ⟨res :: ms, Or.inr ⟨err, tail, by simp [h]⟩⟩

/-- The three sequential drivers, and the opening of the delete stream, end in
`panic` or `log.Fatalf` with the first error the channel reports (`updateTasks`: on
requests that are not nil). -/
theorem sequential_drivers_surface_error {σ : Type} (c : TodoServiceClient σ) (s s' : σ)
    (err : Error) :
    (∀ description dueDate,
      c.AddTask s ⟨description, some (timestamppbNew dueDate)⟩ = (.error err, s') →
      (addTask c s description dueDate).1.outcome = .panicked err) ∧
    (c.ListTasks s {} = (.error err, s') → (printTasks c s).1.outcome = .fatal err) ∧
    (∀ stream (rs : List ListTasksResponse) tail, err ≠ Error.EOF →
      c.ListTasks s {} = (.ok stream, s') →
      stream.Recv = rs.map Except.ok ++ Except.error err :: tail →
      (printTasks c s).1.outcome = .fatal err) ∧
    (∀ reqs, c.UpdateTasks s = (.error err, s') → (updateTasks c s reqs).1.outcome = .fatal err) ∧
    (∀ stream reqs k, c.UpdateTasks s = (.ok stream, s') → (∀ r ∈ reqs, r ≠ none) →
      k < reqs.length → stream.Send k = some err → (∀ j, j < k → stream.Send j = none) →
      (updateTasks c s reqs).1.outcome = .fatal err) ∧
    (∀ stream reqs, c.UpdateTasks s = (.ok stream, s') → (∀ r ∈ reqs, r ≠ none) →
      (∀ j, j < reqs.length → stream.Send j = none) → stream.CloseAndRecv = .error err →
      (updateTasks c s reqs).1.outcome = .fatal err) ∧
    (∀ sched reqs, c.DeleteTasks s = (.error err, s') →
      (deleteTasks c s sched reqs).1.outcome = .fatal err) := by
  refine ⟨?_, ?_, ?_, ?_, ?_, ?_, ?_⟩
  · intro description dueDate h
    simp [addTask, h]
  · intro h
    simp [printTasks, h]
  · intro stream rs tail hne hopen hscript
    simp [printTasks, hopen, hscript, printTasksLoop_error rs err hne, Run.after]
  · intro reqs h
    simp [updateTasks, h]
  · intro stream reqs k hopen hnonnil hk hfail hbefore
    obtain ⟨ho, -, -⟩ := updateTasksLoop_fail stream 0 reqs hnonnil k err hk
      (by simpa using hfail) (by simpa using hbefore)
    simp [updateTasks, hopen, Run.andThen, Run.after, ho]
  · intro stream reqs hopen hnonnil hsend hclose
    obtain ⟨ho, -, -⟩ := updateTasksLoop_ok stream 0 reqs hnonnil (by simpa using hsend)
    simp [updateTasks, hopen, Run.andThen, Run.after, ho, hclose]
  · intro sched reqs h
    simp [deleteTasks, h]

/-! ## The unary driver -/

/-- C2. Whatever the description, the due date and the answer of the `AddTask`
call: when the call reports no error, `addTask` returns the `Id` of the response
and does not panic; when the call reports an error, `addTask` panics with that
error and returns no id. The outcome is never anything else. -/
theorem addTask_exactly_one {σ : Type} (c : TodoServiceClient σ) (s : σ)
    (description : String) (dueDate : Time) :
    let call := (c.AddTask s ⟨description, some (timestamppbNew dueDate)⟩).1
    let out := (addTask c s description dueDate).1.outcome
    (∀ res, call = .ok res → out = .returned res.Id ∧ ∀ err, out ≠ .panicked err) ∧
    (∀ err, call = .error err → out = .panicked err ∧ ∀ id, out ≠ .returned id) ∧
    ((∃ res, call = .ok res ∧ out = .returned res.Id) ∨
      (∃ err, call = .error err ∧ out = .panicked err)) := by
  intro call out
  rcases hcall : c.AddTask s ⟨description, some (timestamppbNew dueDate)⟩ with ⟨r, s'⟩
  have hc : call = r := by simp [call, hcall]
  cases r with
  | error err =>
    have ho : out = .panicked err := by simp [out, addTask, hcall]
    simp [hc, ho]
  | ok res =>
    have ho : out = .returned res.Id := by simp [out, addTask, hcall]
    simp [hc, ho]

/-- The fake task service answers the first add with id 1: `addTask` returns 1 and
does not panic. -/
theorem addTask_exactly_one_witness :
    (addTask fakeService ⟨[]⟩ "This is a task" ⟨0⟩).1.outcome = .returned 1 ∧
    ∀ err, (addTask fakeService ⟨[]⟩ "This is a task" ⟨0⟩).1.outcome ≠ .panicked err :=
  (addTask_exactly_one fakeService ⟨[]⟩ "This is a task" ⟨0⟩).1 ⟨1⟩ rfl

/-! ## The server-stream driver -/

/-- C3. When the stream opens and the remote sends the `n` responses `rs` and then
end-of-stream, `printTasks` returns normally, calls `Recv` exactly `n + 1` times
and prints exactly one line for each response, in the order of `rs`. -/
theorem printTasks_normal_end {σ : Type} (c : TodoServiceClient σ) (s s' : σ)
    (stream : ListTasksStream) (rs : List ListTasksResponse)
    (tail : List (RecvResult ListTasksResponse))
    (hopen : c.ListTasks s {} = (.ok stream, s'))
    (hscript : stream.Recv = rs.map Except.ok ++ Except.error Error.EOF :: tail) :
    (printTasks c s).1.outcome = .returned () ∧
    (printTasks c s).1.trace.count Event.recv = rs.length + 1 ∧
    (printTasks c s).1.trace.filter Event.isStdout = rs.map taskLine := by
  simp [printTasks, hopen, hscript, printTasksLoop_eof, Run.after, List.count_cons,
    count_recvLines, stdout_recvLines, Event.isStdout]

/-- Two stored tasks: `printTasks` returns after three calls of `Recv` and two lines. -/
theorem printTasks_normal_end_witness :
    (printTasks fakeService twoTasks).1.outcome = .returned () ∧
    (printTasks fakeService twoTasks).1.trace.count Event.recv = 3 ∧
    (printTasks fakeService twoTasks).1.trace.filter Event.isStdout =
      [Event.printlnTask (some ⟨1, "This is a task", false, none⟩) "overdue: " false,
        Event.printlnTask (some ⟨2, "This is another task", true, none⟩) "overdue: " false] :=
  printTasks_normal_end fakeService twoTasks twoTasks
    ⟨[.ok ⟨some ⟨1, "This is a task", false, none⟩, false⟩,
      .ok ⟨some ⟨2, "This is another task", true, none⟩, false⟩, .error Error.EOF]⟩
    [⟨some ⟨1, "This is a task", false, none⟩, false⟩,
      ⟨some ⟨2, "This is another task", true, none⟩, false⟩] [] rfl rfl

/-! ## The client-stream driver -/

/-- C1, counterexample. A nil request followed by a request, on a stream that
accepts every `Send`: `updateTasks` passes the nil request to `Send`, panics on
`req.Task`, and never sends the second request, although no `Send` failed. -/
theorem updateTasks_send_order_counterexample :
    fakeService.UpdateTasks twoTasks = (.ok ⟨fun _ => none, .ok {}⟩, twoTasks) ∧
    (updateTasks fakeService twoTasks [none, some ⟨some ⟨7, "", true, none⟩⟩]).1 =
      ⟨[Event.openUpdateTasks, Event.sendUpdate none, Event.panic Error.nilDereference],
        .panicked Error.nilDereference⟩ ∧
    ¬ ((∀ j, j < [none, some (⟨some ⟨7, "", true, none⟩⟩ : UpdateTasksRequest)].length →
          (fun _ : Nat => (none : Option Error)) j = none) →
      (updateTasks fakeService twoTasks
        [none, some ⟨some ⟨7, "", true, none⟩⟩]).1.trace.filterMap Event.updateSent =
        [none, some ⟨some ⟨7, "", true, none⟩⟩]) := by
  refine ⟨rfl, by decide, ?_⟩
  intro h
  exact absurd (h (fun _ _ => rfl)) (by decide)

/-- C1, amended. When the stream opens, the request pointers `updateTasks` passes
to `Send` are a leading part of `reqs`, in the same order, for every request list.
When no request of the list is nil: if the `Send` of request number `k` (counted
from 0) is the first to fail, exactly the requests up to that one are passed to
`Send`; if no `Send` fails, exactly `reqs` are, each once. -/
theorem updateTasks_send_order {σ : Type} (c : TodoServiceClient σ) (s s' : σ)
    (stream : UpdateTasksStream) (reqs : List (Option UpdateTasksRequest))
    (hopen : c.UpdateTasks s = (.ok stream, s')) :
    (∃ k, (updateTasks c s reqs).1.trace.filterMap Event.updateSent = reqs.take k) ∧
    ((∀ r ∈ reqs, r ≠ none) → ∀ k err, k < reqs.length → stream.Send k = some err →
      (∀ j, j < k → stream.Send j = none) →
      (updateTasks c s reqs).1.trace.filterMap Event.updateSent = reqs.take (k + 1)) ∧
    ((∀ r ∈ reqs, r ≠ none) → (∀ j, j < reqs.length → stream.Send j = none) →
      (updateTasks c s reqs).1.trace.filterMap Event.updateSent = reqs) := by
  refine ⟨?_, ?_, ?_⟩
  · obtain ⟨k, hk⟩ := updateTasksLoop_take stream 0 reqs
    by_cases ho : (updateTasksLoop stream 0 reqs).outcome = .returned ()
    · refine ⟨k, ?_⟩
      cases hclose : stream.CloseAndRecv <;>
        simp [updateTasks, hopen, Run.andThen, Run.after, ho, hk, hclose, Event.updateSent]
    · obtain ⟨ht, -⟩ := andThen_stopped (updateTasksLoop stream 0 reqs)
        (fun _ => match stream.CloseAndRecv with
          | .error err =>
            ⟨[.closeAndRecv, .logFatalf "unexpected error: %v" err], .fatal err⟩
          | .ok _ => ⟨[.closeAndRecv], .returned ()⟩) ho
      refine ⟨k, ?_⟩
      simp only [updateTasks, hopen, Run.after, ht]
      simpa [Event.updateSent] using hk
  · intro hnonnil k err hk hfail hbefore
    obtain ⟨ho, hs, -⟩ := updateTasksLoop_fail stream 0 reqs hnonnil k err hk
      (by simpa using hfail) (by simpa using hbefore)
    simp [updateTasks, hopen, Run.andThen, Run.after, ho, hs, Event.updateSent]
  · intro hnonnil h
    obtain ⟨ho, hs, -⟩ := updateTasksLoop_ok stream 0 reqs hnonnil (by simpa using h)
    cases hclose : stream.CloseAndRecv <;>
      simp [updateTasks, hopen, Run.andThen, Run.after, ho, hs, hclose, Event.updateSent]

/-- Three requests, none nil, on a stream whose second `Send` fails: exactly the
first two are passed to `Send`. -/
theorem updateTasks_send_order_witness :
    updateFailureService.UpdateTasks () =
      (.ok ⟨fun k => if k = 1 then some (Error.status 14) else none, .ok {}⟩, ()) ∧
    (updateTasks updateFailureService ()
      [some ⟨none⟩, some ⟨some ⟨7, "", true, none⟩⟩,
        some ⟨some ⟨8, "", true, none⟩⟩]).1.trace.filterMap
        Event.updateSent = [some ⟨none⟩, some ⟨some ⟨7, "", true, none⟩⟩] :=
  ⟨rfl, (updateTasks_send_order updateFailureService () ()
    ⟨fun k => if k = 1 then some (Error.status 14) else none, .ok {}⟩
    [some ⟨none⟩, some ⟨some ⟨7, "", true, none⟩⟩, some ⟨some ⟨8, "", true, none⟩⟩]
    rfl).2.1 (by decide) 1 (Error.status 14) (by decide) rfl
    (fun j hj => by interval_cases j; rfl)⟩

/-- C7, counterexample. One nil request on a stream that accepts every `Send`:
`updateTasks` panics on `req.Task` after the `Send` and never calls `CloseAndRecv`,
although every `Send` succeeded. -/
theorem updateTasks_half_close_counterexample :
    fakeService.UpdateTasks twoTasks = (.ok ⟨fun _ => none, .ok {}⟩, twoTasks) ∧
    (updateTasks fakeService twoTasks [none]).1.outcome = .panicked Error.nilDereference ∧
    (updateTasks fakeService twoTasks [none]).1.trace.count Event.closeAndRecv = 0 ∧
    ¬ ((∀ j, j < [(none : Option UpdateTasksRequest)].length →
          (fun _ : Nat => (none : Option Error)) j = none) →
      (updateTasks fakeService twoTasks [none]).1.trace.count Event.closeAndRecv = 1) := by
  refine ⟨rfl, by decide, by decide, ?_⟩
  intro h
  exact absurd (h (fun _ _ => rfl)) (by decide)

/-- C7, amended. When the stream opens, for every request list: `updateTasks`
calls `CloseAndRecv` at most once, and only when every `Send` succeeded; if some
`Send` of the script fails, it never calls `CloseAndRecv` and does not return
normally. When no request of the list is nil: if every `Send`
succeeds, it calls `CloseAndRecv` exactly once, as its last channel operation,
after it has sent all of `reqs`; if some `Send` fails, it ends in `log.Fatalf`
with the error of the first failed `Send`. -/
theorem updateTasks_half_close {σ : Type} (c : TodoServiceClient σ) (s s' : σ)
    (stream : UpdateTasksStream) (reqs : List (Option UpdateTasksRequest))
    (hopen : c.UpdateTasks s = (.ok stream, s')) :
    ((updateTasks c s reqs).1.trace.count Event.closeAndRecv ≤ 1 ∧
      (0 < (updateTasks c s reqs).1.trace.count Event.closeAndRecv →
        ∀ j, j < reqs.length → stream.Send j = none)) ∧
    (∀ j, j < reqs.length → stream.Send j ≠ none →
      (updateTasks c s reqs).1.trace.count Event.closeAndRecv = 0 ∧
      (updateTasks c s reqs).1.outcome ≠ .returned ()) ∧
    ((∀ r ∈ reqs, r ≠ none) → (∀ j, j < reqs.length → stream.Send j = none) →
      (updateTasks c s reqs).1.trace.count Event.closeAndRecv = 1 ∧
      (updateTasks c s reqs).1.trace.filter Event.isChannelOp =
        Event.openUpdateTasks :: reqs.map Event.sendUpdate ++ [Event.closeAndRecv]) ∧
    ((∀ r ∈ reqs, r ≠ none) → ∀ j, j < reqs.length → stream.Send j ≠ none →
      ∃ k err, k ≤ j ∧ stream.Send k = some err ∧ (∀ i, i < k → stream.Send i = none) ∧
        (updateTasks c s reqs).1.outcome = .fatal err) := by
  -- what the run is when the loop does not fall through
  have hstop : (updateTasksLoop stream 0 reqs).outcome ≠ .returned () →
      (updateTasks c s reqs).1.trace.count Event.closeAndRecv = 0 ∧
      (updateTasks c s reqs).1.outcome ≠ .returned () := by
    intro ho
    obtain ⟨ht, hout⟩ := andThen_stopped (updateTasksLoop stream 0 reqs)
      (fun _ => match stream.CloseAndRecv with
        | .error err =>
          ⟨[.closeAndRecv, .logFatalf "unexpected error: %v" err], .fatal err⟩
        | .ok _ => ⟨[.closeAndRecv], .returned ()⟩) ho
    constructor
    · simp only [updateTasks, hopen, Run.after, ht]
      simp [List.count_cons, updateTasksLoop_no_close]
    · simp only [updateTasks, hopen, Run.after, hout]
      exact ho
  -- what the run is when it does
  have hthrough : (updateTasksLoop stream 0 reqs).outcome = .returned () →
      (updateTasks c s reqs).1.trace.count Event.closeAndRecv = 1 := by
    intro ho
    cases hclose : stream.CloseAndRecv <;>
      simp [updateTasks, hopen, Run.andThen, Run.after, ho, hclose, List.count_cons,
        List.count_append, updateTasksLoop_no_close]
  refine ⟨⟨?_, ?_⟩, ?_, ?_, ?_⟩
  · by_cases ho : (updateTasksLoop stream 0 reqs).outcome = .returned ()
    · exact le_of_eq (hthrough ho)
    · rw [(hstop ho).1]
      exact Nat.zero_le 1
  · intro hpos
    by_cases ho : (updateTasksLoop stream 0 reqs).outcome = .returned ()
    · simpa using (updateTasksLoop_returned stream 0 reqs ho).2
    · rw [(hstop ho).1] at hpos
      exact absurd hpos (Nat.lt_irrefl 0)
  · intro j hj hne
    apply hstop
    intro ho
    exact hne (by simpa using (updateTasksLoop_returned stream 0 reqs ho).2 j hj)
  · intro hnonnil h
    obtain ⟨ho, -, hc⟩ := updateTasksLoop_ok stream 0 reqs hnonnil (by simpa using h)
    refine ⟨hthrough ho, ?_⟩
    cases hclose : stream.CloseAndRecv <;>
      simp [updateTasks, hopen, Run.andThen, Run.after, ho, hc, hclose, Event.isChannelOp]
  · intro hnonnil j hj hne
    obtain ⟨k, err, hk, hfail, hbefore⟩ := first_failure stream.Send (j + 1) j (by omega) hne
    obtain ⟨ho, -, -⟩ := updateTasksLoop_fail stream 0 reqs hnonnil k err (by omega)
      (by simpa using hfail) (by simpa using hbefore)
    exact ⟨k, err, by omega, hfail, hbefore,
      by simp [updateTasks, hopen, Run.andThen, Run.after, ho]⟩

/-- Two requests, none nil, on a stream that accepts every `Send`: `CloseAndRecv`
is called once, after both. -/
theorem updateTasks_half_close_witness :
    fakeService.UpdateTasks twoTasks = (.ok ⟨fun _ => none, .ok {}⟩, twoTasks) ∧
    (updateTasks fakeService twoTasks
      [some ⟨none⟩, some ⟨some ⟨7, "", true, none⟩⟩]).1.trace.count
      Event.closeAndRecv = 1 ∧
    (updateTasks fakeService twoTasks
      [some ⟨none⟩, some ⟨some ⟨7, "", true, none⟩⟩]).1.trace.filter
      Event.isChannelOp =
      [Event.openUpdateTasks, Event.sendUpdate (some ⟨none⟩),
        Event.sendUpdate (some ⟨some ⟨7, "", true, none⟩⟩), Event.closeAndRecv] :=
  ⟨rfl, (updateTasks_half_close fakeService twoTasks twoTasks ⟨fun _ => none, .ok {}⟩
    [some ⟨none⟩, some ⟨some ⟨7, "", true, none⟩⟩] rfl).2.2.1 (by decide)
    (fun _ _ => rfl)⟩

/-! ## Lemmas on the interleaving -/

theorem weave_succ_cons_nil (fuel : Nat) (sched : List Thread) (closed : Bool) (e : Event)
    (m : List Event) :
    weave (fuel + 1) sched closed (e :: m) [] =
      if closed || decide (e ≠ Event.recvWaitc) then (weave fuel sched.tail closed m []).after [e]
      else ⟨⟨[], .blocked⟩, []⟩ := by
  simp only [weave]

theorem weave_succ_cons_cons (fuel : Nat) (sched : List Thread) (closed : Bool) (e x : Event)
    (m r : List Event) :
    weave (fuel + 1) sched closed (e :: m) (x :: r) =
      if (closed || decide (e ≠ Event.recvWaitc)) && decide (sched.head? ≠ some Thread.receiver) then
        (weave fuel sched.tail closed m (x :: r)).after [e]
      else
        match x.fatalError with
        | some err => ⟨⟨[x], .fatal err⟩, r⟩
        | none =>
          (weave fuel sched.tail (closed || decide (x = Event.closeWaitc)) (e :: m) r).after [x] := by
  simp only [weave]

theorem weave_zero (sched : List Thread) (closed : Bool) (m r : List Event) :
    weave 0 sched closed m r = ⟨⟨[], .blocked⟩, r⟩ := by
  cases m <;> simp only [weave]

theorem weave_succ_nil (fuel : Nat) (sched : List Thread) (closed : Bool) (r : List Event) :
    weave (fuel + 1) sched closed [] r = ⟨⟨[], .returned ()⟩, r⟩ := by
  simp only [weave]

/-- Fuel beyond the number of steps left changes nothing: with the fuel that
`deleteTasks` passes, a run never stops for want of fuel. -/
theorem weave_fuel (fuel : Nat) (sched : List Thread) (closed : Bool) (m r : List Event)
    (h : m.length + r.length < fuel) :
    weave (fuel + 1) sched closed m r = weave fuel sched closed m r := by
  induction fuel generalizing sched closed m r with
  | zero => omega
  | succ n ih =>
    cases m with
    | nil => rw [weave_succ_nil, weave_succ_nil]
    | cons e m =>
      cases r with
      | nil =>
        rw [weave_succ_cons_nil, weave_succ_cons_nil, ih _ _ _ _ (by simpa using h)]
      | cons x r =>
        rw [weave_succ_cons_cons (n + 1), weave_succ_cons_cons n,
          ih sched.tail closed m (x :: r) (by simp at h ⊢; omega),
          ih sched.tail (closed || decide (x = Event.closeWaitc)) (e :: m) r
            (by simp at h ⊢; omega)]

/-- Each goroutine's steps appear in a run in program order: the sender steps of
the trace are a leading part of `m`, all of `m` when the function returned, and
the receiver steps of the trace followed by the pending ones are `r`. -/
theorem weave_projection (fuel : Nat) (sched : List Thread) (closed : Bool)
    (m r : List Event)
    (hm : ∀ e ∈ m, e.isSenderStep = true ∧ e.isReceiverStep = false)
    (hr : ∀ x ∈ r, x.isReceiverStep = true ∧ x.isSenderStep = false) :
    (∃ k, (weave fuel sched closed m r).trace.filter Event.isSenderStep = m.take k) ∧
    ((weave fuel sched closed m r).outcome = .returned () →
      (weave fuel sched closed m r).trace.filter Event.isSenderStep = m) ∧
    (weave fuel sched closed m r).trace.filter Event.isReceiverStep ++
      (weave fuel sched closed m r).pending = r := by
  induction fuel generalizing sched closed m r with
  | zero =>
    rw [weave_zero]
    exact ⟨⟨0, by simp⟩, by simp, by simp⟩
  | succ fuel ih =>
    cases m with
    | nil =>
      rw [weave_succ_nil]
      exact ⟨⟨0, by simp⟩, by simp, by simp⟩
    | cons e m =>
      obtain ⟨heS, heR⟩ := hm e (by simp)
      have hm' : ∀ a ∈ m, a.isSenderStep = true ∧ a.isReceiverStep = false :=
        fun a ha => hm a (by simp [ha])
      have hsender : ∀ (w : BidiRun) (r0 : List Event),
          ((∃ k, w.trace.filter Event.isSenderStep = m.take k) ∧
            (w.outcome = .returned () → w.trace.filter Event.isSenderStep = m) ∧
            w.trace.filter Event.isReceiverStep ++ w.pending = r0) →
          ((∃ k, (w.after [e]).trace.filter Event.isSenderStep = (e :: m).take k) ∧
            ((w.after [e]).outcome = .returned () →
              (w.after [e]).trace.filter Event.isSenderStep = e :: m) ∧
            (w.after [e]).trace.filter Event.isReceiverStep ++ (w.after [e]).pending = r0) := by
        rintro w r0 ⟨⟨k, hk⟩, hret, hrecv⟩
        refine ⟨⟨k + 1, ?_⟩, ?_, ?_⟩
        · simp [BidiRun.after, heS, hk]
        · intro ho
          simp [BidiRun.after, heS, hret ho]
        · simpa [BidiRun.after, heR] using hrecv
      cases r with
      | nil =>
        rw [weave_succ_cons_nil]
        split
        · exact hsender _ [] (ih sched.tail closed m [] hm' hr)
        · exact ⟨⟨0, by simp⟩, by simp, by simp⟩
      | cons x r =>
        obtain ⟨hxR, hxS⟩ := hr x (by simp)
        have hr' : ∀ a ∈ r, a.isReceiverStep = true ∧ a.isSenderStep = false :=
          fun a ha => hr a (by simp [ha])
        rw [weave_succ_cons_cons]
        split
        · exact hsender _ (x :: r) (ih sched.tail closed m (x :: r) hm' hr)
        · split
          · exact ⟨⟨0, by simp [hxS]⟩, by simp, by simp [hxR]⟩
          · obtain ⟨⟨k, hk⟩, hret, hrecv⟩ :=
              ih sched.tail (closed || decide (x = Event.closeWaitc)) (e :: m) r hm hr'
            refine ⟨⟨k, ?_⟩, ?_, ?_⟩
            · simpa [BidiRun.after, hxS] using hk
            · intro ho
              simpa [BidiRun.after, hxS] using hret ho
            · simpa [BidiRun.after, hxR] using hrecv

/-- Once `waitc` is closed and the receiver has finished, the sender runs to its end. -/
theorem weave_closed (fuel : Nat) (sched : List Thread) (m : List Event)
    (hfuel : m.length < fuel) :
    weave fuel sched true m [] = ⟨⟨m, .returned ()⟩, []⟩ := by
  induction m generalizing fuel sched with
  | nil =>
    obtain ⟨n, rfl⟩ : ∃ n, fuel = n + 1 := ⟨fuel - 1, by omega⟩
    rw [weave_succ_nil]
  | cons e m ih =>
    obtain ⟨n, rfl⟩ : ∃ n, fuel = n + 1 := ⟨fuel - 1, by omega⟩
    rw [weave_succ_cons_nil, ih n sched.tail (by simpa using hfuel)]
    simp [BidiRun.after]

theorem Joined.after {w : BidiRun} (h : Joined w) (es : List Event) : Joined (w.after es) := by
  obtain ⟨ho, hp, pre, ht⟩ := h
  exact ⟨ho, hp, es ++ pre, by simp [BidiRun.after, ht]⟩

/-- When the sender ends in `<-waitc` and the receiver ends in `close(waitc)`
without reaching `log.Fatalf`, every schedule leads to the return through
`<-waitc`, with the receiver finished. -/
theorem weave_joined (fuel : Nat) (sched : List Thread) (m0 r0 : List Event)
    (hm0 : Event.recvWaitc ∉ m0) (hr0 : Event.closeWaitc ∉ r0)
    (hfatal : ∀ x ∈ r0, x.fatalError = none)
    (hfuel : m0.length + r0.length + 3 ≤ fuel) :
    Joined (weave fuel sched false (m0 ++ [Event.recvWaitc]) (r0 ++ [Event.closeWaitc])) := by
  induction fuel generalizing sched m0 r0 with
  | zero => omega
  | succ fuel ih =>
    -- a step of the receiver
    have hrecv : ∀ (e : Event) (m : List Event), e :: m = m0 ++ [Event.recvWaitc] →
        Joined (match (r0 ++ [Event.closeWaitc]) with
          | [] => ⟨⟨[], .blocked⟩, []⟩
          | x :: r =>
            match x.fatalError with
            | some err => ⟨⟨[x], .fatal err⟩, r⟩
            | none =>
              (weave fuel sched.tail (false || decide (x = Event.closeWaitc)) (e :: m) r).after
                [x]) := by
      intro e m hem
      cases r0 with
      | nil =>
        have hlen : (e :: m).length < fuel := by
          rw [hem]; simp at hfuel ⊢; omega
        simp only [List.nil_append, Event.fatalError, Bool.false_or, decide_True]
        rw [weave_closed fuel sched.tail (e :: m) hlen]
        exact ⟨rfl, rfl, [Event.closeWaitc] ++ m0, by simp [BidiRun.after, hem]⟩
      | cons x r0 =>
        have hx : x ≠ Event.closeWaitc := fun h => hr0 (by simp [h])
        have hfx : x.fatalError = none := hfatal x (by simp)
        simp only [List.cons_append, hfx, hx, Bool.false_or, decide_False]
        rw [hem]
        exact (ih sched.tail m0 r0 hm0 (fun h => hr0 (by simp [h]))
          (fun a ha => hfatal a (by simp [ha])) (by simp at hfuel; omega)).after [x]
    cases m0 with
    | nil =>
      have := hrecv Event.recvWaitc [] rfl
      cases r0 with
      | nil =>
        simp only [List.nil_append] at this ⊢
        rw [weave_succ_cons_cons]
        simpa using this
      | cons x r0 =>
        simp only [List.nil_append, List.cons_append] at this ⊢
        rw [weave_succ_cons_cons]
        simpa using this
    | cons e m0 =>
      have he : e ≠ Event.recvWaitc := fun h => hm0 (by simp [h])
      have := hrecv e (m0 ++ [Event.recvWaitc]) rfl
      have hstep : Joined ((weave fuel sched.tail false (m0 ++ [Event.recvWaitc])
          (r0 ++ [Event.closeWaitc])).after [e]) :=
        (ih sched.tail m0 r0 (fun h => hm0 (by simp [h])) hr0 hfatal
          (by simp at hfuel; omega)).after [e]
      cases r0 with
      | nil =>
        simp only [List.nil_append, List.cons_append] at this hstep ⊢
        rw [weave_succ_cons_cons]
        split
        · exact hstep
        · exact this
      | cons x r0 =>
        simp only [List.cons_append] at this hstep ⊢
        rw [weave_succ_cons_cons]
        split
        · exact hstep
        · exact this

theorem mem_recvLogs (n : Nat) (x : Event) (hx : x ∈ recvLogs n) :
    x = Event.recv ∨ x = Event.logPrintln "deleted tasks" := by
  induction n with
  | zero => simp [recvLogs] at hx
  | succ n ih =>
    simp only [recvLogs, List.mem_cons] at hx
    rcases hx with h | h | h
    · exact Or.inl h
    · exact Or.inr h
    · exact ih h

/-- When a trace ends in the receive from `waitc` and its receiver steps are `n`
responses followed by end-of-stream, the `n + 1` calls of `Recv` and the `n` log
lines all come before that last step. -/
theorem count_before_wait (trace pre : List Event) (n : Nat)
    (hpre : trace = pre ++ [Event.recvWaitc])
    (hrecv : trace.filter Event.isReceiverStep = recvLogs n ++ [Event.recv, Event.closeWaitc]) :
    pre.count Event.recv = n + 1 ∧ pre.count (Event.logPrintln "deleted tasks") = n := by
  constructor
  · have h1 : pre.count Event.recv = (trace.filter Event.isReceiverStep).count Event.recv := by
      rw [List.count_filter (by rfl), hpre]
      simp [List.count_append, List.count_cons]
    rw [h1, hrecv]
    simp [List.count_append, List.count_cons, (count_recvLogs n).1]
  · have h1 : pre.count (Event.logPrintln "deleted tasks") =
        (trace.filter Event.isReceiverStep).count (Event.logPrintln "deleted tasks") := by
      rw [List.count_filter (by rfl), hpre]
      simp [List.count_append, List.count_cons]
    rw [h1, hrecv]
    simp [List.count_append, List.count_cons, (count_recvLogs n).2.1]

/-- The run of `deleteTasks` when the stream opens, every `Send` and `CloseSend`
succeeds and the remote sends `n` responses and then end-of-stream: under every
schedule the function returns through `<-waitc`, the receiver has finished, and
each goroutine has performed all its steps in program order. -/
theorem deleteTasks_joined {σ : Type} (c : TodoServiceClient σ) (s s' : σ)
    (stream : DeleteTasksStream) (reqs : List DeleteTasksRequest)
    (ms : List DeleteTasksResponse) (tail : List (RecvResult DeleteTasksResponse))
    (sched : List Thread)
    (hopen : c.DeleteTasks s = (.ok stream, s'))
    (hsend : ∀ j, j < reqs.length → stream.Send j = none)
    (hclose : stream.CloseSend = none)
    (hscript : stream.Recv = ms.map Except.ok ++ Except.error Error.EOF :: tail) :
    Joined (deleteTasks c s sched reqs).1 ∧
    (deleteTasks c s sched reqs).1.trace.filter Event.isSenderStep =
      reqs.map Event.sendDelete ++ [Event.closeSend, Event.recvWaitc] ∧
    (deleteTasks c s sched reqs).1.trace.filter Event.isReceiverStep =
      recvLogs ms.length ++ [Event.recv, Event.closeWaitc] := by
  have hm : deleteTasksSender stream 0 reqs =
      (reqs.map Event.sendDelete ++ [Event.closeSend]) ++ [Event.recvWaitc] := by
    rw [deleteTasksSender_ok stream 0 reqs (by simpa using hsend)]
    simp [hclose]
  have hr : (deleteTasksReceiver stream.Recv).trace =
      (recvLogs ms.length ++ [Event.recv]) ++ [Event.closeWaitc] := by
    rw [hscript, deleteTasksReceiver_eof]
    simp
  have hm0 : Event.recvWaitc ∉ reqs.map Event.sendDelete ++ [Event.closeSend] := by
    simp
  have hr0 : Event.closeWaitc ∉ recvLogs ms.length ++ [Event.recv] := by
    intro h
    rcases List.mem_append.1 h with h | h
    · rcases mem_recvLogs _ _ h with h | h <;> cases h
    · simp at h
  have hfatal : ∀ x ∈ recvLogs ms.length ++ [Event.recv], x.fatalError = none := by
    intro x h
    rcases List.mem_append.1 h with h | h
    · rcases mem_recvLogs _ _ h with h | h <;> subst h <;> rfl
    · simp at h
      subst h
      rfl
  have hmS : ∀ e ∈ deleteTasksSender stream 0 reqs,
      e.isSenderStep = true ∧ e.isReceiverStep = false := by
    intro e he
    rw [hm] at he
    simp only [List.mem_append, List.mem_map, List.mem_singleton] at he
    rcases he with (⟨_, _, rfl⟩ | rfl) | rfl <;> exact ⟨rfl, rfl⟩
  have hrR : ∀ x ∈ (deleteTasksReceiver stream.Recv).trace,
      x.isReceiverStep = true ∧ x.isSenderStep = false := by
    intro x hx
    rw [hr] at hx
    simp only [List.mem_append, List.mem_singleton] at hx
    rcases hx with (h | rfl) | rfl
    · rcases mem_recvLogs _ _ h with h | h <;> subst h <;> exact ⟨rfl, rfl⟩
    · exact ⟨rfl, rfl⟩
    · exact ⟨rfl, rfl⟩
  have hrun : (deleteTasks c s sched reqs).1 =
      (weave ((deleteTasksSender stream 0 reqs).length +
          (deleteTasksReceiver stream.Recv).trace.length + 1) sched false
        (deleteTasksSender stream 0 reqs) (deleteTasksReceiver stream.Recv).trace).after
        [Event.openDeleteTasks, Event.makeWaitc, Event.goReceiver] := by
    simp [deleteTasks, hopen]
  have hj : Joined (weave ((deleteTasksSender stream 0 reqs).length +
      (deleteTasksReceiver stream.Recv).trace.length + 1) sched false
      (deleteTasksSender stream 0 reqs) (deleteTasksReceiver stream.Recv).trace) := by
    have hlen : (reqs.map Event.sendDelete ++ [Event.closeSend]).length +
        (recvLogs ms.length ++ [Event.recv]).length + 3 ≤
        (deleteTasksSender stream 0 reqs).length +
          (deleteTasksReceiver stream.Recv).trace.length + 1 := by
      rw [hm, hr]
      simp only [List.length_append, List.length_singleton]
      omega
    have := weave_joined _ sched _ _ hm0 hr0 hfatal hlen
    rwa [← hm, ← hr] at this
  obtain ⟨-, hret, hrecv⟩ := weave_projection _ sched false _ _ hmS hrR
  rw [hrun]
  refine ⟨hj.after _, ?_, ?_⟩
  · have := hret hj.1
    simp only [BidiRun.after, List.filter_append, this]
    rw [hm]
    simp [Event.isSenderStep]
  · rw [hj.2.1, List.append_nil] at hrecv
    simp only [BidiRun.after, List.filter_append, hrecv]
    rw [hr]
    simp [Event.isReceiverStep]

theorem deleteTasksSender_class (stream : DeleteTasksStream) (k : Nat)
    (reqs : List DeleteTasksRequest) :
    ∀ e ∈ deleteTasksSender stream k reqs, e.isSenderStep = true ∧ e.isReceiverStep = false := by
  induction reqs generalizing k with
  | nil =>
    intro e he
    cases hclose : stream.CloseSend <;> simp [deleteTasksSender, hclose] at he
    · rcases he with rfl | rfl <;> exact ⟨rfl, rfl⟩
    · subst he
      exact ⟨rfl, rfl⟩
  | cons req rest ih =>
    intro e he
    cases hsend : stream.Send k <;> simp [deleteTasksSender, hsend] at he
    · rcases he with rfl | he
      · exact ⟨rfl, rfl⟩
      · exact ih (k + 1) e he
    · subst he
      exact ⟨rfl, rfl⟩

theorem deleteTasksReceiver_class (script : List (RecvResult DeleteTasksResponse)) :
    ∀ x ∈ (deleteTasksReceiver script).trace,
      x.isReceiverStep = true ∧ x.isSenderStep = false := by
  induction script with
  | nil =>
    intro x hx
    simp [deleteTasksReceiver] at hx
    subst hx
    exact ⟨rfl, rfl⟩
  | cons r rest ih =>
    intro x hx
    cases r with
    | error err =>
      by_cases he : err = Error.EOF
      · simp [deleteTasksReceiver, he] at hx
        rcases hx with rfl | rfl <;> exact ⟨rfl, rfl⟩
      · simp [deleteTasksReceiver, he] at hx
        rcases hx with rfl | rfl <;> exact ⟨rfl, rfl⟩
    | ok res =>
      simp [deleteTasksReceiver, Run.after] at hx
      rcases hx with rfl | rfl | hx
      · exact ⟨rfl, rfl⟩
      · exact ⟨rfl, rfl⟩
      · exact ih x hx

/-- In every run of `deleteTasks` on an open stream, each goroutine's steps appear
in program order: the sender steps of the trace are a leading part of the sender's
steps, all of them when the function returned, and the receiver steps of the trace
followed by the pending ones are the receiver's steps. -/
theorem deleteTasks_projection {σ : Type} (c : TodoServiceClient σ) (s s' : σ)
    (stream : DeleteTasksStream) (sched : List Thread) (reqs : List DeleteTasksRequest)
    (hopen : c.DeleteTasks s = (.ok stream, s')) :
    (∃ k, (deleteTasks c s sched reqs).1.trace.filter Event.isSenderStep =
      (deleteTasksSender stream 0 reqs).take k) ∧
    ((deleteTasks c s sched reqs).1.outcome = .returned () →
      (deleteTasks c s sched reqs).1.trace.filter Event.isSenderStep =
        deleteTasksSender stream 0 reqs) ∧
    (deleteTasks c s sched reqs).1.trace.filter Event.isReceiverStep ++
      (deleteTasks c s sched reqs).1.pending = (deleteTasksReceiver stream.Recv).trace := by
  have hrun : (deleteTasks c s sched reqs).1 =
      (weave ((deleteTasksSender stream 0 reqs).length +
          (deleteTasksReceiver stream.Recv).trace.length + 1) sched false
        (deleteTasksSender stream 0 reqs) (deleteTasksReceiver stream.Recv).trace).after
        [Event.openDeleteTasks, Event.makeWaitc, Event.goReceiver] := by
    simp [deleteTasks, hopen]
  obtain ⟨⟨k, hk⟩, hret, hrecv⟩ := weave_projection
    ((deleteTasksSender stream 0 reqs).length + (deleteTasksReceiver stream.Recv).trace.length + 1)
    sched false _ _ (deleteTasksSender_class stream 0 reqs)
    (deleteTasksReceiver_class stream.Recv)
  rw [hrun]
  refine ⟨⟨k, ?_⟩, ?_, ?_⟩
  · simpa [BidiRun.after, Event.isSenderStep] using hk
  · intro ho
    simpa [BidiRun.after, Event.isSenderStep] using hret ho
  · simpa [BidiRun.after, Event.isReceiverStep] using hrecv


/-! ## The two actors of the bidi-stream driver -/

/-- C8. The steps of the sender of `deleteTasks`, for every request list (the empty
one included) and every script of `Send` and `CloseSend` errors. If every `Send`
succeeds, they are the `Send` of each request in list order and then `CloseSend`,
called exactly once, after the last `Send`. If the `Send` of request number `k`
(counted from 0) is the first to fail, they are the `Send` of the requests up to
that one and nothing else: no further `Send` and no `CloseSend`. In a run of
`deleteTasks` on the open stream, under every schedule, the sender steps of the
trace are a leading part of these steps, and all of them once the function has
returned. -/
theorem deleteTasksSender_steps {σ : Type} (c : TodoServiceClient σ) (s s' : σ)
    (stream : DeleteTasksStream) (reqs : List DeleteTasksRequest)
    (hopen : c.DeleteTasks s = (.ok stream, s')) :
    ((∀ j, j < reqs.length → stream.Send j = none) →
      (deleteTasksSender stream 0 reqs).filter Event.isChannelOp =
        reqs.map Event.sendDelete ++ [Event.closeSend] ∧
      (deleteTasksSender stream 0 reqs).count Event.closeSend = 1) ∧
    (∀ k err, k < reqs.length → stream.Send k = some err →
      (∀ j, j < k → stream.Send j = none) →
      deleteTasksSender stream 0 reqs = (reqs.take (k + 1)).map Event.sendDelete ∧
      (deleteTasksSender stream 0 reqs).count Event.closeSend = 0) ∧
    (∀ sched,
      (∃ k, (deleteTasks c s sched reqs).1.trace.filter Event.isSenderStep =
        (deleteTasksSender stream 0 reqs).take k) ∧
      ((deleteTasks c s sched reqs).1.outcome = .returned () →
        (deleteTasks c s sched reqs).1.trace.filter Event.isSenderStep =
          deleteTasksSender stream 0 reqs)) := by
  have hmem : ∀ l : List DeleteTasksRequest, Event.closeSend ∉ l.map Event.sendDelete := by
    intro l h
    obtain ⟨_, _, h⟩ := List.mem_map.1 h
    cases h
  have hops : ∀ l : List DeleteTasksRequest,
      (l.map Event.sendDelete).filter Event.isChannelOp = l.map Event.sendDelete := by
    intro l
    rw [List.filter_eq_self]
    intro a ha
    obtain ⟨_, _, rfl⟩ := List.mem_map.1 ha
    rfl
  refine ⟨?_, ?_, ?_⟩
  · intro h
    rw [deleteTasksSender_ok stream 0 reqs (by simpa using h)]
    constructor
    · rw [List.filter_append, hops]
      cases stream.CloseSend <;> simp [Event.isChannelOp]
    · rw [List.count_append, List.count_eq_zero.2 (hmem reqs)]
      cases stream.CloseSend <;> simp [List.count_cons]
  · intro k err hk hfail hbefore
    rw [deleteTasksSender_fail stream 0 reqs k err hk (by simpa using hfail)
      (by simpa using hbefore)]
    exact ⟨rfl, List.count_eq_zero.2 (hmem _)⟩
  · intro sched
    obtain ⟨h1, h2, -⟩ := deleteTasks_projection c s s' stream sched reqs hopen
    exact ⟨h1, h2⟩

/-- Two requests on a stream whose first `Send` fails: the sender makes that one
`Send` and stops, without `CloseSend`. -/
theorem deleteTasksSender_steps_witness :
    sendFailureService.DeleteTasks () =
      (.ok ⟨fun _ => some (Error.status 14), none, [.ok {}, .error Error.EOF]⟩, ()) ∧
    deleteTasksSender ⟨fun _ => some (Error.status 14), none, [.ok {}, .error Error.EOF]⟩ 0
      [⟨1⟩, ⟨2⟩] = [Event.sendDelete ⟨1⟩] ∧
    (deleteTasksSender ⟨fun _ => some (Error.status 14), none, [.ok {}, .error Error.EOF]⟩ 0
      [⟨1⟩, ⟨2⟩]).count Event.closeSend = 0 :=
  ⟨rfl, (deleteTasksSender_steps sendFailureService () ()
    ⟨fun _ => some (Error.status 14), none, [.ok {}, .error Error.EOF]⟩ [⟨1⟩, ⟨2⟩] rfl).2.1 0
    (Error.status 14) (by decide) rfl (fun j hj => absurd hj (Nat.not_lt_zero j))⟩

/-- C9. The receiver of `deleteTasks`, for every receive script. It closes `waitc`
at most once. When end-of-stream follows `n` responses, it closes `waitc` exactly
once, as its last step, after `n + 1` calls of `Recv`, and returns; when another
error follows `n` responses, it never closes `waitc` and the process exits through
`log.Fatalf`. In both cases it has logged exactly `n` confirmations. In a run of
`deleteTasks` on an open stream, under every schedule, the receiver steps of the
trace followed by the steps still pending are the steps of the receiver. -/
theorem deleteTasksReceiver_signal :
    (∀ script, (deleteTasksReceiver script).trace.count Event.closeWaitc ≤ 1) ∧
    (∀ (σ : Type) (c : TodoServiceClient σ) (s s' : σ) (stream : DeleteTasksStream)
      (sched : List Thread) (reqs : List DeleteTasksRequest),
      c.DeleteTasks s = (.ok stream, s') →
      (deleteTasks c s sched reqs).1.trace.filter Event.isReceiverStep ++
        (deleteTasks c s sched reqs).1.pending = (deleteTasksReceiver stream.Recv).trace) ∧
    (∀ (ms : List DeleteTasksResponse) (tail : List (RecvResult DeleteTasksResponse)),
      let run := deleteTasksReceiver (ms.map Except.ok ++ Except.error Error.EOF :: tail)
      run.outcome = .returned () ∧
      run.trace.count Event.closeWaitc = 1 ∧
      run.trace.getLast? = some Event.closeWaitc ∧
      run.trace.count Event.recv = ms.length + 1 ∧
      run.trace.count (Event.logPrintln "deleted tasks") = ms.length) ∧
    (∀ (ms : List DeleteTasksResponse) (err : Error)
      (tail : List (RecvResult DeleteTasksResponse)), err ≠ Error.EOF →
      let run := deleteTasksReceiver (ms.map Except.ok ++ Except.error err :: tail)
      run.outcome = .fatal err ∧
      run.trace.count Event.closeWaitc = 0 ∧
      run.trace.count Event.recv = ms.length + 1 ∧
      run.trace.count (Event.logPrintln "deleted tasks") = ms.length) := by
  have heof : ∀ (ms : List DeleteTasksResponse) (tail : List (RecvResult DeleteTasksResponse)),
      let run := deleteTasksReceiver (ms.map Except.ok ++ Except.error Error.EOF :: tail)
      run.outcome = .returned () ∧
      run.trace.count Event.closeWaitc = 1 ∧
      run.trace.getLast? = some Event.closeWaitc ∧
      run.trace.count Event.recv = ms.length + 1 ∧
      run.trace.count (Event.logPrintln "deleted tasks") = ms.length := by
    intro ms tail
    obtain ⟨h1, h2, h3⟩ := count_recvLogs ms.length
    simp only [deleteTasksReceiver_eof]
    refine ⟨trivial, ?_, ?_, ?_, ?_⟩
    · simp [List.count_append, List.count_cons, h3]
    · simp [List.getLast?_append]
    · simp [List.count_append, List.count_cons, h1]
    · simp [List.count_append, List.count_cons, h2]
  have herr : ∀ (ms : List DeleteTasksResponse) (err : Error)
      (tail : List (RecvResult DeleteTasksResponse)), err ≠ Error.EOF →
      let run := deleteTasksReceiver (ms.map Except.ok ++ Except.error err :: tail)
      run.outcome = .fatal err ∧
      run.trace.count Event.closeWaitc = 0 ∧
      run.trace.count Event.recv = ms.length + 1 ∧
      run.trace.count (Event.logPrintln "deleted tasks") = ms.length := by
    intro ms err tail hne
    obtain ⟨h1, h2, h3⟩ := count_recvLogs ms.length
    simp only [deleteTasksReceiver_error ms err hne]
    refine ⟨trivial, ?_, ?_, ?_⟩
    · simp [List.count_append, List.count_cons, h3]
    · simp [List.count_append, List.count_cons, h1]
    · simp [List.count_append, List.count_cons, h2]
  refine ⟨?_, ?_, heof, herr⟩
  swap
  · intro σ c s s' stream sched reqs hopen
    exact (deleteTasks_projection c s s' stream sched reqs hopen).2.2
  intro script
  obtain ⟨ms, h | ⟨err, tail, h⟩⟩ := script_shape script
  · rw [h, deleteTasksReceiver_silent]
    simp [List.count_append, List.count_cons, (count_recvLogs ms.length).2.2]
  · by_cases he : err = Error.EOF
    · subst he
      rw [h]
      exact le_of_eq (heof ms tail).2.1
    · rw [h]
      exact le_of_eq_of_le (herr ms err tail he).2.1 (Nat.zero_le 1)

/-- Two responses and then a status error: the receiver never closes `waitc`, has
logged two confirmations, and the process exits. -/
theorem deleteTasksReceiver_signal_witness :
    Error.status 14 ≠ Error.EOF ∧
    (deleteTasksReceiver [.ok {}, .ok {}, .error (Error.status 14)]).outcome =
      .fatal (Error.status 14) ∧
    (deleteTasksReceiver [.ok {}, .ok {}, .error (Error.status 14)]).trace.count
      Event.closeWaitc = 0 ∧
    (deleteTasksReceiver [.ok {}, .ok {}, .error (Error.status 14)]).trace.count
      Event.recv = 3 ∧
    (deleteTasksReceiver [.ok {}, .ok {}, .error (Error.status 14)]).trace.count
      (Event.logPrintln "deleted tasks") = 2 :=
  ⟨by decide, deleteTasksReceiver_signal.2.2.2 [{}, {}] (Error.status 14) [] (by decide)⟩

/-! ## The bidi-stream driver -/

/-- C4. When the stream opens, every `Send` and `CloseSend` succeeds and the remote
sends the `m` responses `ms` and then end-of-stream, then under every schedule of
the sender and the receiver `deleteTasks` returns, its last step is the receive
from `waitc`, and before that step the receiver has made its `m + 1` calls of
`Recv` and logged all `m` confirmations; no step of the receiver is left. -/
theorem deleteTasks_no_response_lost {σ : Type} (c : TodoServiceClient σ) (s s' : σ)
    (stream : DeleteTasksStream) (reqs : List DeleteTasksRequest)
    (ms : List DeleteTasksResponse) (tail : List (RecvResult DeleteTasksResponse))
    (sched : List Thread)
    (hopen : c.DeleteTasks s = (.ok stream, s'))
    (hsend : ∀ j, j < reqs.length → stream.Send j = none)
    (hclose : stream.CloseSend = none)
    (hscript : stream.Recv = ms.map Except.ok ++ Except.error Error.EOF :: tail) :
    (deleteTasks c s sched reqs).1.outcome = .returned () ∧
    (deleteTasks c s sched reqs).1.pending = [] ∧
    ∃ pre, (deleteTasks c s sched reqs).1.trace = pre ++ [Event.recvWaitc] ∧
      pre.count Event.recv = ms.length + 1 ∧
      pre.count (Event.logPrintln "deleted tasks") = ms.length := by
  obtain ⟨⟨hout, hpend, pre, hpre⟩, -, hrecv⟩ :=
    deleteTasks_joined c s s' stream reqs ms tail sched hopen hsend hclose hscript
  obtain ⟨hcalls, hlogs⟩ := count_before_wait _ pre ms.length hpre hrecv
  exact ⟨hout, hpend, pre, hpre, hcalls, hlogs⟩

/-- Two requests, two responses, and a schedule that lets the sender finish its two
`Send` calls and `CloseSend` before the receiver moves, so that every response
arrives after the half-close: `deleteTasks` still returns only after both
confirmations are logged. -/
theorem deleteTasks_no_response_lost_witness :
    (deleteTasks fakeService twoTasks [.sender, .sender, .sender] [⟨1⟩, ⟨2⟩]).1.outcome =
      .returned () ∧
    (deleteTasks fakeService twoTasks [.sender, .sender, .sender] [⟨1⟩, ⟨2⟩]).1.pending = [] ∧
    ∃ pre, (deleteTasks fakeService twoTasks [.sender, .sender, .sender] [⟨1⟩, ⟨2⟩]).1.trace =
        pre ++ [Event.recvWaitc] ∧
      pre.count Event.recv = 3 ∧
      pre.count (Event.logPrintln "deleted tasks") = 2 :=
  deleteTasks_no_response_lost fakeService twoTasks twoTasks
    ⟨fun _ => none, none, [.ok {}, .ok {}, .error Error.EOF]⟩ [⟨1⟩, ⟨2⟩] [{}, {}] []
    [.sender, .sender, .sender] rfl (fun _ _ => rfl) rfl rfl

/-- C5, at the failing inputs. One request on a stream whose `Send` fails, and one
request on a stream whose `CloseSend` fails: in both runs `deleteTasks` returns
normally, with no `log.Fatalf` and no `panic` step, so its caller never sees the
error. -/
theorem deleteTasks_swallows_error :
    sendFailureService.DeleteTasks () =
      (.ok ⟨fun _ => some (Error.status 14), none, [.ok {}, .error Error.EOF]⟩, ()) ∧
    (deleteTasks sendFailureService () [] [⟨1⟩]).1.toRun =
      ⟨[.openDeleteTasks, .makeWaitc, .goReceiver, .sendDelete ⟨1⟩], .returned ()⟩ ∧
    (deleteTasks closeSendFailureService () [] [⟨1⟩]).1.toRun =
      ⟨[.openDeleteTasks, .makeWaitc, .goReceiver, .sendDelete ⟨1⟩, .closeSend],
        .returned ()⟩ := by
  refine ⟨rfl, ?_, ?_⟩ <;> decide

/-- C6, at the failing input. One request on a stream whose `Send` fails, the
calling goroutine scheduled first: `deleteTasks` returns right after the failed
`Send`, it has not received from `waitc`, and all four steps of the receiver
goroutine are still to come. -/
theorem deleteTasks_returns_without_join :
    deleteTasks sendFailureService () [Thread.sender] [⟨1⟩] =
      (⟨⟨[.openDeleteTasks, .makeWaitc, .goReceiver, .sendDelete ⟨1⟩], .returned ()⟩,
        [.recv, .logPrintln "deleted tasks", .recv, .closeWaitc]⟩, ()) := by
  decide

/-! ## The whole program -/

theorem deleteSent_senderStep (l : List Event) :
    (l.filter Event.isSenderStep).filterMap Event.deleteSent = l.filterMap Event.deleteSent := by
  induction l with
  | nil => rfl
  | cons e l ih =>
    cases e <;> simp [List.filter_cons, Event.isSenderStep, Event.deleteSent, ih]

theorem bind_step {σ α β : Type} (p : Prog σ α) (k : α → Prog σ β) (s s' s'' : σ) (a : α)
    (t t' : List Event) (o : Outcome β)
    (h : p s = (⟨t, .returned a⟩, s')) (h' : k a s' = (⟨t', o⟩, s'')) :
    Prog.bind p k s = (⟨t ++ t', o⟩, s'') := by
  simp [Prog.bind, h, h', Run.after]

/-- C10. The whole program against the fake task service, for every start time and
every schedule of the two goroutines of `deleteTasks`. The three `addTask` calls
return 1, 2 and 3; the first `printTasks` returns after printing exactly 3 lines;
`updateTasks` sends exactly three requests, carrying the ids 1, 2, 3 in that order,
and calls `CloseAndRecv` once; `deleteTasks` sends the ids 1, 2, 3 in that order and
returns through `<-waitc` after exactly 3 confirmations have been logged; and the
trace of `main` is the trace of these calls in program order, ending in a normal
return. -/
theorem main_scenario (addr : String) (rest : List String) (now : Time) (sched : List Thread) :
    let due := now.Add (5 * Second)
    let a1 := addTask fakeService ⟨[]⟩ "This is a task" due
    let a2 := addTask fakeService a1.2 "This is another task" due
    let a3 := addTask fakeService a2.2 "And yet another task" due
    let l := printTasks fakeService a3.2
    let u := updateTasks fakeService a3.2 [
      some ⟨some ⟨1, "A better name for the task", false, none⟩⟩,
      some ⟨some ⟨2, "", false, some (timestamppbNew (due.Add (5 * Hour)))⟩⟩,
      some ⟨some ⟨3, "", true, none⟩⟩]
    let d := deleteTasks fakeService a3.2 sched [⟨1⟩, ⟨2⟩, ⟨3⟩]
    let run := main (addr :: rest) none none fakeService ⟨[]⟩ now sched
    (a1.1.outcome = .returned 1 ∧ a2.1.outcome = .returned 2 ∧ a3.1.outcome = .returned 3) ∧
    (l.1.outcome = .returned () ∧ (l.1.trace.filter Event.isStdout).length = 3) ∧
    (u.1.outcome = .returned () ∧
      u.1.trace.filterMap Event.updateSent = [
        some ⟨some ⟨1, "A better name for the task", false, none⟩⟩,
        some ⟨some ⟨2, "", false, some (timestamppbNew (due.Add (5 * Hour)))⟩⟩,
        some ⟨some ⟨3, "", true, none⟩⟩] ∧
      u.1.trace.count Event.closeAndRecv = 1) ∧
    (d.1.outcome = .returned () ∧
      d.1.trace.filterMap Event.deleteSent = [⟨1⟩, ⟨2⟩, ⟨3⟩] ∧
      ∃ pre, d.1.trace = pre ++ [Event.recvWaitc] ∧
        pre.count (Event.logPrintln "deleted tasks") = 3) ∧
    run.outcome = .returned () ∧
    run.trace =
      [Event.dial addr, Event.println "--------ADD--------"] ++ a1.1.trace ++ a2.1.trace ++
        a3.1.trace ++ [Event.println "-------------------", Event.println "--------LIST-------"] ++
        l.1.trace ++ [Event.println "-------------------", Event.println "-------UPDATE------"] ++
        u.1.trace ++ l.1.trace ++
        [Event.println "-------------------", Event.println "-------DELETE------"] ++
        d.1.trace ++ l.1.trace ++ [Event.println "-------------------", Event.connClose] := by
  intro due a1 a2 a3 l u d run
  obtain ⟨⟨hdo, -, pre, hpre⟩, hs, hrecv⟩ := deleteTasks_joined fakeService a3.2 a3.2
    ⟨fun _ => none, none, [.ok {}, .ok {}, .ok {}, .error Error.EOF]⟩ [⟨1⟩, ⟨2⟩, ⟨3⟩]
    [{}, {}, {}] [] sched rfl (fun _ _ => rfl) rfl rfl
  have hlog := (count_before_wait _ pre 3 hpre hrecv).2
  refine ⟨⟨rfl, rfl, rfl⟩, ⟨rfl, rfl⟩, ⟨rfl, rfl, rfl⟩, ⟨hdo, ?_, pre, hpre, hlog⟩, ?_⟩
  · rw [← deleteSent_senderStep, hs]
    rfl
  · have hstep : ((deleteTasks fakeService a3.2 sched [⟨1⟩, ⟨2⟩, ⟨3⟩]).1.toRun,
        (deleteTasks fakeService a3.2 sched [⟨1⟩, ⟨2⟩, ⟨3⟩]).2) =
        ((⟨d.1.trace, .returned ()⟩ : Run Unit), a3.2) := by
      rw [← hdo]
      rfl
    have key : mainBody fakeService now sched ⟨[]⟩ =
        (⟨[Event.println "--------ADD--------"] ++ (a1.1.trace ++ (a2.1.trace ++ (a3.1.trace ++
          ([Event.println "-------------------"] ++ ([Event.println "--------LIST-------"] ++
          (l.1.trace ++ ([Event.println "-------------------"] ++
          ([Event.println "-------UPDATE------"] ++ (u.1.trace ++ (l.1.trace ++
          ([Event.println "-------------------"] ++ ([Event.println "-------DELETE------"] ++
          (d.1.trace ++ (l.1.trace ++ [Event.println "-------------------"])))))))))))))),
          .returned ()⟩, a3.2) := by
      unfold mainBody
      refine bind_step _ _ _ _ _ _ _ _ _ (by rfl) ?_
      refine bind_step _ _ _ _ _ _ _ _ _ (by rfl) ?_
      refine bind_step _ _ _ _ _ _ _ _ _ (by rfl) ?_
      refine bind_step _ _ _ _ _ _ _ _ _ (by rfl) ?_
      refine bind_step _ _ _ _ _ _ _ _ _ (by rfl) ?_
      refine bind_step _ _ _ _ _ _ _ _ _ (by rfl) ?_
      refine bind_step _ _ _ _ _ _ _ _ _ (by rfl) ?_
      refine bind_step _ _ _ _ _ _ _ _ _ (by rfl) ?_
      refine bind_step _ _ _ _ _ _ _ _ _ (by rfl) ?_
      refine bind_step _ _ _ _ _ _ _ _ _ (by rfl) ?_
      refine bind_step _ _ _ _ _ _ _ _ _ (by rfl) ?_
      refine bind_step _ _ _ _ _ _ _ _ _ (by rfl) ?_
      refine bind_step _ _ _ _ _ _ _ _ _ (by rfl) ?_
      refine bind_step _ _ _ _ _ _ _ _ _ hstep ?_
      refine bind_step _ _ _ _ _ _ _ _ _ (by rfl) ?_
      rfl
    simp only [run, main, key, Run.after, List.append_assoc, List.cons_append, List.nil_append,
      true_and]

end GrpcClient
